import Mathlib

set_option autoImplicit false

/-!
Shallow embedding of the digital-humanities skills repository, covering the
dispatcher (`scripts/digital_humanities.py`), the batch processor
(`scripts/batch_processor.py`), the cultural data analyzer, the image analyzer
and the historical network analysis module, together with theorems settling
the spec claims about them.
-/

/-! ### String helpers mirroring Python's `in`, `endswith` and `os.path.splitext` -/

/-- Boolean test that the second list is an initial segment of the first,
mirroring Python's `str.startswith` on the underlying characters. -/
def startsWithList : List Char → List Char → Bool
  | _, [] => true
  | [], _ :: _ => false
  | a :: as, b :: bs => a = b && startsWithList as bs

/-- Boolean substring test: `containsList hay needle` mirrors Python's
`needle in hay` on strings (character lists). -/
def containsList : List Char → List Char → Bool
  | [], needle => needle.isEmpty
  | a :: t, needle => startsWithList (a :: t) needle || containsList t needle

/-- Python's `needle in haystack` on `String`. -/
def strContains (haystack needle : String) : Bool :=
  containsList haystack.data needle.data

/-- Python's `haystack.endswith(needle)` on `String`. -/
def strEndsWith (haystack needle : String) : Bool :=
  startsWithList haystack.data.reverse needle.data.reverse

/-! ### IntelligentAssistant (`scripts/digital_humanities.py`, lines 561-741) -/

/-- Model of a user request dict as seen by `IntelligentAssistant.identify_needs`:
the eight data-type keys it probes plus the `description` key; `α` is the type
of the attached data values. -/
structure Request (α : Type) where
  text : Option α
  historical_data : Option α
  heritage_data : Option α
  art_data : Option α
  language_data : Option α
  philosophy_data : Option α
  social_data : Option α
  education_data : Option α
  description : Option String
deriving DecidableEq

/-- Content of the `"data"` entry of the needs dict built by `identify_needs`:
initially empty, then either a single copied key or the whole request. -/
inductive NeedsData (α : Type) where
  | empty : NeedsData α
  | entry (key : String) (value : α) : NeedsData α
  | whole (request : Request α) : NeedsData α
deriving DecidableEq

/-- The needs dict returned by `identify_needs` (confidence is the float
literal of the source, represented exactly as a rational). -/
structure Needs (α : Type) where
  request_type : String
  data_types : List String
  intent : String
  confidence : ℚ
  data : NeedsData α
deriving DecidableEq

/-- The `IntelligentAssistant.__init__` knowledge base: skill names paired
with their keyword lists, in Python dict insertion order (lines 570-581). -/
def knowledge_base_keywords : List (String × List String) :=
  [("text_analysis", ["文本", "分析", "情感", "分类", "关键词"]),
   ("historical_research", ["历史", "史料", "考证", "编年", "地理"]),
   ("art_cultural_research", ["艺术", "文化", "风格", "遗产", "比较"]),
   ("language_research", ["语言", "语言学", "语料库", "方言", "演变"]),
   ("philosophy_research", ["哲学", "思想", "概念", "论证", "语义"]),
   ("social_cultural_analysis", ["社会", "文化", "网络", "趋势", "媒体"]),
   ("cultural_heritage", ["遗产", "保护", "传承", "建档", "重建"]),
   ("public_education", ["教育", "公众", "故事", "社区", "资源"])]

/-- The initial needs dict of `identify_needs` (lines 599-605), which is also
the value returned when no branch fires. -/
def unknownNeeds (α : Type) : Needs α :=
  { request_type := "unknown", data_types := [], intent := "", confidence := 0,
    data := NeedsData.empty }

/-- The keyword-matching fallback of `identify_needs` (lines 656-670): the
for-loop with its two breaks selects the first skill, in knowledge-base order,
one of whose keywords is a substring of the description. -/
def keywordNeeds {α : Type} (r : Request α) : Needs α :=
  match r.description with
  | none => unknownNeeds α
  | some d =>
    match knowledge_base_keywords.find? (fun q => q.2.any (fun kw => strContains d kw)) with
    | some p =>
      { request_type := p.1, data_types := [], intent := "process_" ++ p.1,
        confidence := 7/10, data := NeedsData.whole r }
    | none => unknownNeeds α

/-- `IntelligentAssistant.identify_needs` (lines 595-672): the if/elif chain
over the eight data-type keys, falling back to keyword matching. -/
def identify_needs {α : Type} (r : Request α) : Needs α :=
  match r.text with
  | some v =>
    { request_type := "text_analysis", data_types := ["text"], intent := "analyze_text",
      confidence := 9/10, data := NeedsData.entry "text" v }
  | none =>
  match r.historical_data with
  | some v =>
    { request_type := "historical_research", data_types := ["historical_data"],
      intent := "research_history", confidence := 9/10,
      data := NeedsData.entry "historical_data" v }
  | none =>
  match r.heritage_data with
  | some v =>
    { request_type := "cultural_heritage", data_types := ["heritage_data"],
      intent := "preserve_heritage", confidence := 9/10,
      data := NeedsData.entry "heritage_data" v }
  | none =>
  match r.art_data with
  | some v =>
    { request_type := "art_cultural_research", data_types := ["art_data"],
      intent := "analyze_art", confidence := 9/10, data := NeedsData.entry "art_data" v }
  | none =>
  match r.language_data with
  | some v =>
    { request_type := "language_research", data_types := ["language_data"],
      intent := "research_language", confidence := 9/10,
      data := NeedsData.entry "language_data" v }
  | none =>
  match r.philosophy_data with
  | some v =>
    { request_type := "philosophy_research", data_types := ["philosophy_data"],
      intent := "research_philosophy", confidence := 9/10,
      data := NeedsData.entry "philosophy_data" v }
  | none =>
  match r.social_data with
  | some v =>
    { request_type := "social_cultural_analysis", data_types := ["social_data"],
      intent := "analyze_social", confidence := 9/10,
      data := NeedsData.entry "social_data" v }
  | none =>
  match r.education_data with
  | some v =>
    { request_type := "public_education", data_types := ["education_data"],
      intent := "educate_public", confidence := 9/10,
      data := NeedsData.entry "education_data" v }
  | none => keywordNeeds r

/-- C1: a request with none of the eight data-type keys but with a description
string is dispatched to the first skill, in fixed knowledge-base order, one of
whose keywords occurs as a substring of the description, with confidence 0.7
and data the whole request; with no keyword match the request type stays
"unknown" with confidence 0. -/
theorem identify_needs_keyword_dispatch {α : Type} (r : Request α) (d : String)
    (htext : r.text = none) (hhist : r.historical_data = none)
    (hher : r.heritage_data = none) (hart : r.art_data = none)
    (hlang : r.language_data = none) (hphil : r.philosophy_data = none)
    (hsoc : r.social_data = none) (hedu : r.education_data = none)
    (hdesc : r.description = some d) :
    (∀ p, knowledge_base_keywords.find? (fun q => q.2.any (fun kw => strContains d kw)) = some p →
      identify_needs r =
        { request_type := p.1, data_types := [], intent := "process_" ++ p.1,
          confidence := 7/10, data := NeedsData.whole r }) ∧
    (knowledge_base_keywords.find? (fun q => q.2.any (fun kw => strContains d kw)) = none →
      (identify_needs r).request_type = "unknown" ∧ (identify_needs r).confidence = 0) := by
  have hid : identify_needs r = keywordNeeds r := by
    unfold identify_needs
    rw [htext, hhist, hher, hart, hlang, hphil, hsoc, hedu]
  rw [hid]
  unfold keywordNeeds
  rw [hdesc]
  constructor
  · intro p hp
    simp only [hp]
  · intro hnone
    simp only [hnone]
    exact ⟨rfl, rfl⟩

/-- Concrete request exercising the keyword fallback. -/
def requestC1 : Request String :=
  { text := none, historical_data := none, heritage_data := none, art_data := none,
    language_data := none, philosophy_data := none, social_data := none,
    education_data := none, description := some "研究历史文献" }

/-- Witness for C1 at a concrete request whose description matches a
historical-research keyword and no earlier skill's keyword. -/
theorem identify_needs_keyword_dispatch_witness :
    identify_needs requestC1 =
      { request_type := "historical_research", data_types := [],
        intent := "process_historical_research", confidence := 7/10,
        data := NeedsData.whole requestC1 } :=
  (identify_needs_keyword_dispatch requestC1 "研究历史文献"
      rfl rfl rfl rfl rfl rfl rfl rfl rfl).1
    ("historical_research", ["历史", "史料", "考证", "编年", "地理"]) (by decide)

/-! ### BatchProcessor._split_content (`scripts/batch_processor.py`, lines 173-187) -/

/-- `BatchProcessor._split_content`: the loop `for i in range(0, len(content),
chunk_size): chunks.append(content[i:i+chunk_size])`, on the character list of
the content string. The source raises `ValueError` from `range` when
`chunk_size` is zero, so only positive chunk sizes are meaningful. -/
def split_content (content : List Char) (chunkSize : Nat) : List (List Char) :=
  if h : content = [] ∨ chunkSize = 0 then []
  else content.take chunkSize :: split_content (content.drop chunkSize) chunkSize
termination_by content.length
decreasing_by
  push_neg at h
  have h1 : 0 < content.length := List.length_pos.mpr h.1
  have h2 : 0 < chunkSize := Nat.pos_of_ne_zero h.2
  simp only [List.length_drop]
  omega

/-- Concatenating the chunks of `split_content` restores the content. -/
theorem split_content_join (content : List Char) (k : Nat) (hk : 0 < k) :
    (split_content content k).flatten = content := by
  by_cases hc : content = []
  · rw [split_content]
    simp [hc]
  · have h : ¬(content = [] ∨ k = 0) := by
      push_neg
      exact ⟨hc, by omega⟩
    rw [split_content, dif_neg h]
    rw [List.flatten_cons, split_content_join (content.drop k) k hk]
    exact List.take_append_drop k content
termination_by content.length
decreasing_by
  have h1 : 0 < content.length := List.length_pos.mpr hc
  simp only [List.length_drop]
  omega

/-- Every chunk of `split_content` except possibly the last has length exactly
`k`. -/
theorem split_content_chunks_full (content : List Char) (k : Nat) (hk : 0 < k) :
    ∀ c ∈ (split_content content k).dropLast, c.length = k := by
  intro c hc
  by_cases hcnil : content = []
  · rw [split_content] at hc
    simp [hcnil] at hc
  · have h : ¬(content = [] ∨ k = 0) := by
      push_neg
      exact ⟨hcnil, by omega⟩
    rw [split_content, dif_neg h] at hc
    by_cases hd : content.drop k = []
    · have hrest : split_content (content.drop k) k = [] := by
        rw [split_content]
        simp [hd]
      rw [hrest] at hc
      simp at hc
    · have hrest : split_content (content.drop k) k ≠ [] := by
        rw [split_content]
        have h2 : ¬(content.drop k = [] ∨ k = 0) := by
          push_neg
          exact ⟨hd, by omega⟩
        rw [dif_neg h2]
        exact List.cons_ne_nil _ _
      rw [List.dropLast_cons_of_ne_nil hrest] at hc
      rcases List.mem_cons.mp hc with h1 | h1
      · subst h1
        have hlen : k < content.length := by
          have := List.drop_eq_nil_iff.not.mp hd
          omega
        rw [List.length_take]
        omega
      · exact split_content_chunks_full (content.drop k) k hk c h1
termination_by content.length
decreasing_by
  have h1 : 0 < content.length := List.length_pos.mpr hcnil
  simp only [List.length_drop]
  omega

/-- No chunk produced by `split_content` is empty. -/
theorem split_content_chunks_ne_nil (content : List Char) (k : Nat) (hk : 0 < k) :
    ∀ c ∈ split_content content k, c ≠ [] := by
  intro c hc
  by_cases hcnil : content = []
  · rw [split_content] at hc
    simp [hcnil] at hc
  · have h : ¬(content = [] ∨ k = 0) := by
      push_neg
      exact ⟨hcnil, by omega⟩
    rw [split_content, dif_neg h] at hc
    rcases List.mem_cons.mp hc with h1 | h1
    · subst h1
      simp only [ne_eq, List.take_eq_nil_iff]
      push_neg
      exact ⟨by omega, hcnil⟩
    · exact split_content_chunks_ne_nil (content.drop k) k hk c h1
termination_by content.length
decreasing_by
  have h1 : 0 < content.length := List.length_pos.mpr hcnil
  simp only [List.length_drop]
  omega

/-- C8: for every content string and positive chunk size, `_split_content`
round-trips (concatenation restores the content), every chunk except possibly
the last has length exactly `chunk_size`, and no chunk is empty. -/
theorem split_content_spec (content : List Char) (k : Nat) (hk : 0 < k) :
    (split_content content k).flatten = content ∧
    (∀ c ∈ (split_content content k).dropLast, c.length = k) ∧
    (∀ c ∈ split_content content k, c ≠ []) :=
  ⟨split_content_join content k hk, split_content_chunks_full content k hk,
    split_content_chunks_ne_nil content k hk⟩

/-- Witness for C8 at the concrete content "abcde" with chunk size 2. -/
theorem split_content_spec_witness :
    0 < 2 ∧
    ((split_content "abcde".data 2).flatten = "abcde".data ∧
     (∀ c ∈ (split_content "abcde".data 2).dropLast, c.length = 2) ∧
     (∀ c ∈ split_content "abcde".data 2, c ≠ [])) :=
  ⟨by decide, split_content_spec "abcde".data 2 (by decide)⟩

/-! ### BatchProcessor.process_folder (`scripts/batch_processor.py`, lines 27-121) -/

/-- Python's `os.path.splitext(name)[0]` for a basename: split at the last
dot, except that a name whose characters before the last dot are all dots is
returned whole. -/
def splitextStem (cs : List Char) : List Char :=
  match cs.reverse.findIdx? (fun c => c = '.') with
  | none => cs
  | some j =>
    let sepIndex := cs.length - 1 - j
    if (cs.take sepIndex).all (fun c => c = '.') then cs
    else cs.take sepIndex

/-- Outcome of the body of a Python try block: normal completion or a raised
exception carrying its message. -/
inductive TryOutcome where
  | ok : TryOutcome
  | raised (msg : String) : TryOutcome
deriving DecidableEq

/-- One file yielded by `os.walk` inside the input folder: its basename and
the outcome of the try block body (reading, processing and saving either
succeed, or raise with a message). -/
structure WalkedFile where
  file_name : String
  outcome : TryOutcome
deriving DecidableEq

/-- One entry of the `stats["files"]` list: on success `info` is the output
file path, on failure the exception message. -/
structure FileRecord where
  file_name : String
  status : String
  info : String
deriving DecidableEq

/-- The stats dict built by `process_folder` (lines 48-55, 104). -/
structure BatchStats where
  total_files : Nat
  processed_files : Nat
  failed_files : Nat
  start_time : String
  end_time : Option String
  files : List FileRecord
deriving DecidableEq

/-- Filesystem effects of `process_folder`: creating the output folder,
writing a per-file result JSON, and writing the final stats JSON (which
carries the stats dict it serializes). -/
inductive WriteEvent where
  | makeOutputFolder : WriteEvent
  | writeResultFile (path : String) : WriteEvent
  | writeStatsFile (path : String) (stats : BatchStats) : WriteEvent
deriving DecidableEq

/-- Return value of `process_folder`: the early error dict for a missing
input folder, or the stats dict. -/
inductive BatchResult where
  | errorDict (msg : String) : BatchResult
  | stats (s : BatchStats) : BatchResult
deriving DecidableEq

/-- The extension filter `any(file_name.endswith(ext) for ext in file_extensions)`. -/
def fileMatches (exts : List String) (name : String) : Bool :=
  exts.any (fun ext => strEndsWith name ext)

/-- The per-file output path `os.path.join(output_folder,
f"{os.path.splitext(file_name)[0]}_result.json")` (POSIX join). -/
def resultPath (outputFolder name : String) : String :=
  outputFolder ++ "/" ++ String.mk (splitextStem name.data) ++ "_result.json"

/-- The body of the `os.walk` loop of `process_folder` (lines 62-102) for one
file, threading the stats dict and the write events. -/
def processStep (exts : List String) (outputFolder : String)
    (acc : BatchStats × List WriteEvent) (f : WalkedFile) :
    BatchStats × List WriteEvent :=
  if fileMatches exts f.file_name then
    match f.outcome with
    | TryOutcome.ok =>
      let out := resultPath outputFolder f.file_name
      ({ acc.1 with
          total_files := acc.1.total_files + 1,
          processed_files := acc.1.processed_files + 1,
          files := acc.1.files ++ [⟨f.file_name, "success", out⟩] },
        acc.2 ++ [WriteEvent.writeResultFile out])
    | TryOutcome.raised e =>
      ({ acc.1 with
          total_files := acc.1.total_files + 1,
          failed_files := acc.1.failed_files + 1,
          files := acc.1.files ++ [⟨f.file_name, "failed", e⟩] },
        acc.2)
  else acc

/-- `BatchProcessor.process_folder` (lines 27-121): existence check on the
input folder, creation of the output folder, the walk over the files, and the
final stats write. `walked` lists the files found by `os.walk` in order. -/
def process_folder (inputExists outputExists : Bool) (walked : List WalkedFile)
    (exts : List String) (inputFolder outputFolder : String)
    (startTime endTime : String) : List WriteEvent × BatchResult :=
  if !inputExists then ([], BatchResult.errorDict ("输入文件夹不存在: " ++ inputFolder))
  else
    let initWrites : List WriteEvent :=
      if outputExists then [] else [WriteEvent.makeOutputFolder]
    let init : BatchStats × List WriteEvent :=
      ({ total_files := 0, processed_files := 0, failed_files := 0,
         start_time := startTime, end_time := none, files := [] }, initWrites)
    let res := walked.foldl (processStep exts outputFolder) init
    let finalStats := { res.1 with end_time := some endTime }
    (res.2 ++ [WriteEvent.writeStatsFile (outputFolder ++ "/batch_processing_stats.json") finalStats],
      BatchResult.stats finalStats)

/-- C5: on a missing input folder, `process_folder` returns an error dict and
performs no filesystem effect at all. -/
theorem process_folder_missing_input (outputExists : Bool) (walked : List WalkedFile)
    (exts : List String) (inputFolder outputFolder startTime endTime : String) :
    process_folder false outputExists walked exts inputFolder outputFolder startTime endTime =
      ([], BatchResult.errorDict ("输入文件夹不存在: " ++ inputFolder)) := rfl

/-- Stats-dict invariant maintained by the walk loop of `process_folder`. -/
def StatsInv (s : BatchStats) : Prop :=
  s.total_files = s.processed_files + s.failed_files ∧
  s.files.length = s.total_files ∧
  ∀ entry ∈ s.files, entry.status = "success" ∨ entry.status = "failed"

/-- One step of the walk loop preserves the stats invariant. -/
theorem processStep_inv (exts : List String) (outF : String)
    (acc : BatchStats × List WriteEvent) (f : WalkedFile)
    (h : StatsInv acc.1) : StatsInv (processStep exts outF acc f).1 := by
  obtain ⟨h1, h2, h3⟩ := h
  unfold processStep
  by_cases hm : fileMatches exts f.file_name
  · cases hf : f.outcome with
    | ok =>
      simp only [hm, if_true, hf]
      refine ⟨by simp; omega, by simp [h2], ?_⟩
      intro entry he
      rcases List.mem_append.mp he with h' | h'
      · exact h3 entry h'
      · rcases List.mem_singleton.mp h' with rfl
        exact Or.inl rfl
    | raised e =>
      simp only [hm, if_true, hf]
      refine ⟨by simp; omega, by simp [h2], ?_⟩
      intro entry he
      rcases List.mem_append.mp he with h' | h'
      · exact h3 entry h'
      · rcases List.mem_singleton.mp h' with rfl
        exact Or.inr rfl
  · simp only [hm, if_false]
    exact ⟨h1, h2, h3⟩

/-- The walk loop preserves the stats invariant. -/
theorem foldl_processStep_inv (exts : List String) (outF : String)
    (walked : List WalkedFile) :
    ∀ acc : BatchStats × List WriteEvent, StatsInv acc.1 →
      StatsInv ((walked.foldl (processStep exts outF) acc).1) := by
  induction walked with
  | nil => intro acc h; exact h
  | cons f rest ih =>
    intro acc h
    exact ih (processStep exts outF acc f) (processStep_inv exts outF acc f h)

/-- C9: on an existing input folder, the stats dict returned by
`process_folder` satisfies total_files = processed_files + failed_files, its
files list has exactly total_files entries, and every entry's status is
"success" or "failed". -/
theorem process_folder_stats_invariant (outputExists : Bool) (walked : List WalkedFile)
    (exts : List String) (inF outF startTime endTime : String) :
    ∃ s, (process_folder true outputExists walked exts inF outF startTime endTime).2 =
        BatchResult.stats s ∧
      s.total_files = s.processed_files + s.failed_files ∧
      s.files.length = s.total_files ∧
      ∀ entry ∈ s.files, entry.status = "success" ∨ entry.status = "failed" := by
  refine ⟨_, rfl, ?_⟩
  have hinv := foldl_processStep_inv exts outF walked
      ({ total_files := 0, processed_files := 0, failed_files := 0,
         start_time := startTime, end_time := none, files := [] },
        if outputExists then [] else [WriteEvent.makeOutputFolder])
      ⟨rfl, rfl, fun entry he => absurd he (List.not_mem_nil entry)⟩
  exact ⟨hinv.1, hinv.2.1, hinv.2.2⟩

/-- Concrete walk for the C3 counterexample: a single matching file whose
try-block body raises (for instance a file that is not valid UTF-8). -/
def walkC3 : List WalkedFile := [⟨"a.txt", TryOutcome.raised "invalid start byte"⟩]

/-- C3 counterexample: with one matching file "a.txt" whose processing raises,
`process_folder` writes no "a_result.json" result file, contradicting "exactly
one result file per matching file". -/
theorem process_folder_result_file_counterexample :
    WriteEvent.writeResultFile "out/a_result.json" ∉
      (process_folder true true walkC3 [".txt", ".md", ".csv"] "in" "out" "t0" "t1").1 := by
  decide

/-- The walk loop appends exactly one result-file write per matching file
whose try-block body completes normally. -/
theorem foldl_processStep_writes (exts : List String) (outF : String)
    (walked : List WalkedFile) :
    ∀ acc : BatchStats × List WriteEvent,
      (walked.foldl (processStep exts outF) acc).2 =
        acc.2 ++ walked.filterMap (fun f =>
          if fileMatches exts f.file_name then
            match f.outcome with
            | TryOutcome.ok => some (WriteEvent.writeResultFile (resultPath outF f.file_name))
            | TryOutcome.raised _ => none
          else none) := by
  induction walked with
  | nil => intro acc; simp
  | cons f rest ih =>
    intro acc
    rw [List.foldl_cons, ih]
    by_cases hm : fileMatches exts f.file_name
    · cases hf : f.outcome with
      | ok => simp [processStep, hm, hf]
      | raised e => simp [processStep, hm, hf]
    · simp [processStep, hm]

/-- C3 (amended): on an existing input folder, `process_folder` performs,
after the optional output-folder creation, exactly one result-file write (to
"<stem>_result.json" under the output folder) per matching file whose
processing does not raise — in walk order — and finally one write of
"batch_processing_stats.json" carrying the returned stats dict. -/
theorem process_folder_writes (outputExists : Bool) (walked : List WalkedFile)
    (exts : List String) (inF outF startTime endTime : String) :
    ∃ s, (process_folder true outputExists walked exts inF outF startTime endTime).2 =
        BatchResult.stats s ∧
      (process_folder true outputExists walked exts inF outF startTime endTime).1 =
        (if outputExists then [] else [WriteEvent.makeOutputFolder]) ++
        walked.filterMap (fun f =>
          if fileMatches exts f.file_name then
            match f.outcome with
            | TryOutcome.ok => some (WriteEvent.writeResultFile (resultPath outF f.file_name))
            | TryOutcome.raised _ => none
          else none) ++
        [WriteEvent.writeStatsFile (outF ++ "/batch_processing_stats.json") s] := by
  refine ⟨_, rfl, ?_⟩
  have hw := foldl_processStep_writes exts outF walked
      ({ total_files := 0, processed_files := 0, failed_files := 0,
         start_time := startTime, end_time := none, files := [] },
        if outputExists then [] else [WriteEvent.makeOutputFolder])
  show (walked.foldl (processStep exts outF) _).2 ++ _ = _
  rw [hw]

/-! ### NetworkAnalysis (`digital-humanities-historical-research/scripts/network_analysis.py`) -/

/-- Python's `<` on strings, on the character lists: lexicographic comparison
by code point. -/
def listCharLt : List Char → List Char → Bool
  | [], [] => false
  | [], _ :: _ => true
  | _ :: _, [] => false
  | a :: as, b :: bs => decide (a < b) || (decide (a = b) && listCharLt as bs)

/-- Python's `a < b` on `String`. -/
def pyStrLt (a b : String) : Bool := listCharLt a.data b.data

/-- Lexicographic comparison is irreflexive. -/
theorem listCharLt_irrefl (l : List Char) : listCharLt l l = false := by
  induction l with
  | nil => rfl
  | cons a as ih => simp [listCharLt, ih]

/-- Lexicographic comparison is asymmetric. -/
theorem listCharLt_asymm : ∀ l m : List Char,
    listCharLt l m = true → listCharLt m l = true → False
  | [], [], h, _ => by simp [listCharLt] at h
  | [], _ :: _, _, h' => by simp [listCharLt] at h'
  | _ :: _, [], h, _ => by simp [listCharLt] at h
  | a :: as, b :: bs, h, h' => by
    simp only [listCharLt, Bool.or_eq_true, Bool.and_eq_true, decide_eq_true_eq] at h h'
    rcases h with h | ⟨hab, h⟩
    · rcases h' with h' | ⟨hba, _⟩
      · exact absurd h' (lt_asymm h)
      · rw [hba] at h
        exact lt_irrefl a h
    · rcases h' with h' | ⟨_, h'⟩
      · rw [hab] at h'
        exact lt_irrefl b h'
      · exact listCharLt_asymm as bs h h'

/-- Lexicographic comparison is total on distinct lists. -/
theorem listCharLt_total : ∀ l m : List Char, l ≠ m →
    listCharLt l m = true ∨ listCharLt m l = true
  | [], [], h => absurd rfl h
  | [], _ :: _, _ => Or.inl (by simp [listCharLt])
  | _ :: _, [], _ => Or.inr (by simp [listCharLt])
  | a :: as, b :: bs, h => by
    by_cases hab : a = b
    · subst hab
      have hne : as ≠ bs := fun he => h (by rw [he])
      rcases listCharLt_total as bs hne with h' | h'
      · exact Or.inl (by simp [listCharLt, h'])
      · exact Or.inr (by simp [listCharLt, h'])
    · rcases lt_or_gt_of_ne hab with h' | h'
      · exact Or.inl (by simp [listCharLt, h'])
      · exact Or.inr (by simp [listCharLt, h'])

/-- `pyStrLt` is irreflexive. -/
theorem pyStrLt_irrefl (a : String) : pyStrLt a a = false :=
  listCharLt_irrefl a.data

/-- `pyStrLt` is asymmetric. -/
theorem pyStrLt_asymm (a b : String) (h : pyStrLt a b = true) : pyStrLt b a = false := by
  cases hba : pyStrLt b a
  · rfl
  · exact absurd (listCharLt_asymm a.data b.data h hba) (fun f => f)

/-- `pyStrLt` is total on distinct strings. -/
theorem pyStrLt_total (a b : String) (h : a ≠ b) :
    pyStrLt a b = true ∨ pyStrLt b a = true := by
  apply listCharLt_total
  intro hd
  apply h
  cases a
  cases b
  exact congrArg String.mk hd

/-- `pyStrLt` strings are distinct. -/
theorem pyStrLt_ne (a b : String) (h : pyStrLt a b = true) : a ≠ b := by
  intro he
  subst he
  rw [pyStrLt_irrefl] at h
  exact Bool.false_ne_true h

/-- Normalization of one extracted relationship pair in `build_network`
(lines 65-70): self-pairs are skipped by the `source != target` guard, and
`if source > target: source, target = target, source` orders the remaining
pair with the smaller name first. -/
def normKey (p : String × String) : Option (String × String) :=
  if p.1 = p.2 then none
  else if pyStrLt p.2 p.1 then some (p.2, p.1) else some p

/-- `defaultdict(int)` increment on an insertion-ordered association list:
the first entry with the key is incremented, otherwise a new entry with count
1 is appended. -/
def bumpCount : List ((String × String) × Nat) → (String × String) →
    List ((String × String) × Nat)
  | [], k => [(k, 1)]
  | (k', c) :: rest, k =>
    if k' = k then (k', c + 1) :: rest else (k', c) :: bumpCount rest k

/-- Count stored for a key in the association list (0 when absent). -/
def lookupCount : List ((String × String) × Nat) → (String × String) → Nat
  | [], _ => 0
  | (k', c) :: rest, k => if k' = k then c else lookupCount rest k

/-- One iteration of the counting loop of `build_network` (lines 65-70). -/
def stepCount (acc : List ((String × String) × Nat)) (p : String × String) :
    List ((String × String) × Nat) :=
  match normKey p with
  | none => acc
  | some k => bumpCount acc k

/-- The `relationship_counts` dict of `build_network` (lines 63-70). -/
def relationship_counts (rels : List (String × String)) :
    List ((String × String) × Nat) :=
  rels.foldl stepCount []

/-- Insertion-ordered model of the `networkx.Graph` held by a
`NetworkAnalysis` instance: the node list and, per edge, its (source, target)
key as first inserted together with its weight attribute. -/
structure NXGraph where
  nodes : List String
  edges : List ((String × String) × Nat)
deriving DecidableEq

/-- The empty graph created by `NetworkAnalysis.__init__`. -/
def emptyNXGraph : NXGraph := ⟨[], []⟩

/-- `networkx.Graph.add_node`: a no-op on an already present node. -/
def addNode (g : NXGraph) (n : String) : NXGraph :=
  if n ∈ g.nodes then g else { g with nodes := g.nodes ++ [n] }

/-- `networkx.Graph.add_edge` with a weight attribute: both endpoints are
added as nodes when missing, an existing undirected edge (either orientation)
has its weight replaced, and a new edge is appended. -/
def addEdge (g : NXGraph) (u v : String) (w : Nat) : NXGraph :=
  let g' := addNode (addNode g u) v
  if g'.edges.any (fun e => decide (e.1 = (u, v) ∨ e.1 = (v, u))) then
    { g' with edges := g'.edges.map (fun e =>
        if e.1 = (u, v) ∨ e.1 = (v, u) then (e.1, w) else e) }
  else
    { g' with edges := g'.edges ++ [((u, v), w)] }

/-- One iteration of the graph-population loop of `build_network`
(lines 72-76): `add_node(source); add_node(target); add_edge(source, target,
weight=weight)`. -/
def buildStep (g : NXGraph) (kc : (String × String) × Nat) : NXGraph :=
  addEdge (addNode (addNode g kc.1.1) kc.1.2) kc.1.1 kc.1.2 kc.2

/-- `NetworkAnalysis.build_network` (lines 57-78), applied to the instance's
current graph and the `extract_relationships` output. -/
def build_network (g0 : NXGraph) (rels : List (String × String)) : NXGraph :=
  (relationship_counts rels).foldl buildStep g0

/-- Library-computed statistics of `analyze_network`, kept symbolic: each
constructor records which networkx computation was applied to which graph. -/
inductive NXStat where
  | density (g : NXGraph)
  | connectedComponents (g : NXGraph)
  | degreeCentrality (g : NXGraph)
  | betweennessCentrality (g : NXGraph)
  | closenessCentrality (g : NXGraph)
  | communities (g : NXGraph)
deriving DecidableEq

/-- The analysis dict returned by `analyze_network` (lines 87-98). -/
structure NetworkAnalysisDict where
  nodes : Nat
  edges : Nat
  density : NXStat
  connected_components : NXStat
  degree : NXStat
  betweenness : NXStat
  closeness : NXStat
  communities : NXStat
deriving DecidableEq

/-- `NetworkAnalysis.analyze_network` (lines 80-100) as a function of the
instance's current graph state: build the network first when the graph has no
nodes, then report the node and edge counts and the library statistics. -/
def analyze_network (st : NXGraph) (rels : List (String × String)) :
    NetworkAnalysisDict :=
  let g := if st.nodes.isEmpty then build_network st rels else st
  { nodes := g.nodes.length, edges := g.edges.length,
    density := NXStat.density g,
    connected_components := NXStat.connectedComponents g,
    degree := NXStat.degreeCentrality g,
    betweenness := NXStat.betweennessCentrality g,
    closeness := NXStat.closenessCentrality g,
    communities := NXStat.communities g }

/-- Number of occurrences of a pair in either orientation among the extracted
relationships. -/
def pairOccurrences (rels : List (String × String)) (u v : String) : Nat :=
  rels.countP (fun p => decide (p = (u, v) ∨ p = (v, u)))

/-- Bumping a key changes exactly that key's count by one. -/
theorem lookupCount_bumpCount (acc : List ((String × String) × Nat))
    (k' k : String × String) :
    lookupCount (bumpCount acc k') k =
      lookupCount acc k + (if k = k' then 1 else 0) := by
  induction acc with
  | nil =>
    by_cases h : k' = k
    · subst h
      simp [bumpCount, lookupCount]
    · have h2 : ¬(k = k') := fun hh => h hh.symm
      simp [bumpCount, lookupCount, h, h2]
  | cons hd rest ih =>
    obtain ⟨a, c⟩ := hd
    by_cases hak : a = k'
    · subst hak
      by_cases hk : a = k
      · subst hk
        simp [bumpCount, lookupCount]
      · have h2 : ¬(k = a) := fun hh => hk hh.symm
        simp [bumpCount, lookupCount, hk, h2]
    · by_cases hk : a = k
      · subst hk
        simp [bumpCount, lookupCount, hak, fun hh => hak hh]
      · simp [bumpCount, lookupCount, hak, hk, ih]

/-- The key list after a bump: unchanged when the key is present, the key
appended otherwise. -/
theorem bumpCount_keys (acc : List ((String × String) × Nat)) (k : String × String) :
    (bumpCount acc k).map Prod.fst =
      if k ∈ acc.map Prod.fst then acc.map Prod.fst else acc.map Prod.fst ++ [k] := by
  induction acc with
  | nil => simp [bumpCount]
  | cons hd rest ih =>
    obtain ⟨a, c⟩ := hd
    by_cases hak : a = k
    · subst hak
      simp [bumpCount]
    · have hka : ¬(k = a) := fun hh => hak hh.symm
      simp only [bumpCount, if_neg hak, List.map_cons, ih]
      by_cases hk : k ∈ rest.map Prod.fst
      · simp [hk, List.mem_cons, hka]
      · simp [hk, List.mem_cons, hka]

/-- Bumping preserves key distinctness. -/
theorem bumpCount_nodup (acc : List ((String × String) × Nat)) (k : String × String)
    (h : (acc.map Prod.fst).Nodup) : ((bumpCount acc k).map Prod.fst).Nodup := by
  rw [bumpCount_keys]
  by_cases hk : k ∈ acc.map Prod.fst
  · simp [hk, h]
  · simp [hk, List.nodup_append, h]

/-- Bumping preserves a predicate on keys when the bumped key satisfies it. -/
theorem bumpCount_key_pred (P : String × String → Prop)
    (acc : List ((String × String) × Nat)) (k : String × String)
    (hacc : ∀ e ∈ acc, P e.1) (hk : P k) : ∀ e ∈ bumpCount acc k, P e.1 := by
  induction acc with
  | nil =>
    intro e he
    simp only [bumpCount, List.mem_singleton] at he
    rw [he]
    exact hk
  | cons hd rest ih =>
    obtain ⟨a, c⟩ := hd
    intro e he
    by_cases hak : a = k
    · subst hak
      simp only [bumpCount, if_pos rfl] at he
      rcases List.mem_cons.mp he with rfl | h'
      · exact hacc (a, c) (List.mem_cons_self _ _)
      · exact hacc e (List.mem_cons_of_mem _ h')
    · simp only [bumpCount, if_neg hak] at he
      rcases List.mem_cons.mp he with rfl | h'
      · exact hacc (a, c) (List.mem_cons_self _ _)
      · exact ih (fun e' he' => hacc e' (List.mem_cons_of_mem _ he')) e h'

/-- Bumping keeps all counts positive. -/
theorem bumpCount_pos (acc : List ((String × String) × Nat)) (k : String × String)
    (hacc : ∀ e ∈ acc, 0 < e.2) : ∀ e ∈ bumpCount acc k, 0 < e.2 := by
  induction acc with
  | nil =>
    intro e he
    simp only [bumpCount, List.mem_singleton] at he
    rw [he]
    exact Nat.zero_lt_one
  | cons hd rest ih =>
    obtain ⟨a, c⟩ := hd
    intro e he
    by_cases hak : a = k
    · subst hak
      simp only [bumpCount, if_pos rfl] at he
      rcases List.mem_cons.mp he with rfl | h'
      · exact Nat.succ_pos c
      · exact hacc e (List.mem_cons_of_mem _ h')
    · simp only [bumpCount, if_neg hak] at he
      rcases List.mem_cons.mp he with rfl | h'
      · exact hacc (a, c) (List.mem_cons_self _ _)
      · exact ih (fun e' he' => hacc e' (List.mem_cons_of_mem _ he')) e h'

/-- With distinct keys, the stored count of an entry is its lookup value. -/
theorem lookupCount_of_mem : ∀ (acc : List ((String × String) × Nat)),
    (acc.map Prod.fst).Nodup → ∀ (k : String × String) (c : Nat),
    (k, c) ∈ acc → lookupCount acc k = c
  | [], _, k, c, hmem => by simp at hmem
  | (a, c') :: rest, h, k, c, hmem => by
    have hcons : a ∉ rest.map Prod.fst ∧ (rest.map Prod.fst).Nodup := by
      rw [List.map_cons, List.nodup_cons] at h
      exact h
    rcases List.mem_cons.mp hmem with heq | hmem'
    · have h1 : k = a := congrArg Prod.fst heq
      have h2 : c = c' := congrArg Prod.snd heq
      subst h1
      subst h2
      simp [lookupCount]
    · have ha : ¬(a = k) := by
        intro hak
        subst hak
        exact hcons.1 (List.mem_map_of_mem Prod.fst hmem')
      simp only [lookupCount, if_neg ha]
      exact lookupCount_of_mem rest hcons.2 k c hmem'

/-- Every key produced by `normKey` has its components in strictly increasing
Python string order. -/
theorem normKey_lt (p k : String × String) (h : normKey p = some k) :
    pyStrLt k.1 k.2 = true := by
  unfold normKey at h
  by_cases h1 : p.1 = p.2
  · simp [h1] at h
  · rw [if_neg h1] at h
    by_cases h2 : pyStrLt p.2 p.1 = true
    · rw [if_pos h2] at h
      have hk := Option.some.inj h
      rw [← hk]
      exact h2
    · rw [if_neg h2] at h
      have hk := Option.some.inj h
      rw [← hk]
      rcases pyStrLt_total p.1 p.2 h1 with ht | ht
      · exact ht
      · exact absurd ht h2

/-- Characterization of `normKey` at an ordered key: a pair normalizes to
`(u, v)` with `u < v` exactly when it is `(u, v)` or `(v, u)`. -/
theorem normKey_eq_iff (u v : String) (huv : pyStrLt u v = true) (p : String × String) :
    normKey p = some (u, v) ↔ p = (u, v) ∨ p = (v, u) := by
  constructor
  · intro h
    unfold normKey at h
    by_cases h1 : p.1 = p.2
    · simp [h1] at h
    · rw [if_neg h1] at h
      by_cases h2 : pyStrLt p.2 p.1 = true
      · rw [if_pos h2] at h
        have hk := Option.some.inj h
        have ha : p.2 = u := congrArg Prod.fst hk
        have hb : p.1 = v := congrArg Prod.snd hk
        right
        rw [← ha, ← hb]
      · rw [if_neg h2] at h
        left
        exact Option.some.inj h
  · intro h
    have hneq : u ≠ v := pyStrLt_ne u v huv
    have hasym : pyStrLt v u = false := pyStrLt_asymm u v huv
    rcases h with rfl | rfl
    · unfold normKey
      rw [if_neg (show ¬((u, v).1 = (u, v).2) from hneq)]
      rw [if_neg (show ¬(pyStrLt (u, v).2 (u, v).1 = true) from by simp [hasym])]
    · unfold normKey
      rw [if_neg (show ¬((v, u).1 = (v, u).2) from fun hh => hneq hh.symm)]
      rw [if_pos (show pyStrLt (v, u).2 (v, u).1 = true from huv)]

/-- Well-formedness of the counting dict: distinct keys, ordered key
components, positive counts. -/
def CountsWF (acc : List ((String × String) × Nat)) : Prop :=
  (acc.map Prod.fst).Nodup ∧
  (∀ e ∈ acc, pyStrLt e.1.1 e.1.2 = true) ∧
  (∀ e ∈ acc, 0 < e.2)

/-- One counting-loop iteration preserves well-formedness. -/
theorem stepCount_wf (acc : List ((String × String) × Nat)) (p : String × String)
    (h : CountsWF acc) : CountsWF (stepCount acc p) := by
  obtain ⟨h1, h2, h3⟩ := h
  unfold stepCount
  cases hnp : normKey p with
  | none => exact ⟨h1, h2, h3⟩
  | some k =>
    refine ⟨bumpCount_nodup acc k h1, ?_, bumpCount_pos acc k h3⟩
    exact bumpCount_key_pred (fun q => pyStrLt q.1 q.2 = true) acc k h2 (normKey_lt p k hnp)

/-- The counting loop preserves well-formedness. -/
theorem foldl_stepCount_wf (rels : List (String × String)) :
    ∀ acc, CountsWF acc → CountsWF (rels.foldl stepCount acc) := by
  induction rels with
  | nil => intro acc h; exact h
  | cons p rest ih => intro acc h; exact ih (stepCount acc p) (stepCount_wf acc p h)

/-- The `relationship_counts` dict is well-formed. -/
theorem relationship_counts_wf (rels : List (String × String)) :
    CountsWF (relationship_counts rels) :=
  foldl_stepCount_wf rels [] ⟨List.nodup_nil, by simp, by simp⟩

/-- The counting loop adds, for each key, the number of pairs normalizing to
that key. -/
theorem foldl_stepCount_lookup (rels : List (String × String)) :
    ∀ acc (k : String × String),
      lookupCount (rels.foldl stepCount acc) k =
        lookupCount acc k + rels.countP (fun p => decide (normKey p = some k)) := by
  induction rels with
  | nil => intro acc k; simp
  | cons p rest ih =>
    intro acc k
    rw [List.foldl_cons, ih, List.countP_cons]
    cases hnp : normKey p with
    | none => simp [stepCount, hnp]
    | some k' =>
      simp only [stepCount, hnp]
      rw [lookupCount_bumpCount]
      by_cases hk : k = k'
      · subst hk
        simp only [hnp, decide_eq_true_eq]
        simp
        omega
      · have hk' : ¬(some k' = some k) := fun hh => hk (Option.some.inj hh).symm
        simp [hnp, hk, hk']

/-- The count stored in `relationship_counts` for a key is the number of
extracted pairs normalizing to it. -/
theorem relationship_counts_lookup (rels : List (String × String)) (k : String × String) :
    lookupCount (relationship_counts rels) k =
      rels.countP (fun p => decide (normKey p = some k)) := by
  have h := foldl_stepCount_lookup rels [] k
  simpa [relationship_counts, lookupCount] using h

/-- `add_node` leaves the edge list unchanged. -/
theorem addNode_edges (g : NXGraph) (n : String) : (addNode g n).edges = g.edges := by
  unfold addNode
  split <;> rfl

/-- `add_node` makes its argument a node. -/
theorem addNode_mem (g : NXGraph) (n : String) : n ∈ (addNode g n).nodes := by
  unfold addNode
  by_cases h : n ∈ g.nodes
  · simp [h]
  · simp [h]

/-- `add_node` keeps existing nodes. -/
theorem addNode_nodes_mono (g : NXGraph) (m n : String) (h : n ∈ g.nodes) :
    n ∈ (addNode g m).nodes := by
  unfold addNode
  by_cases hm : m ∈ g.nodes
  · simp [hm, h]
  · simp only [hm, if_false]
    exact List.mem_append_left _ h

/-- `add_edge` has the node effect of adding both endpoints. -/
theorem addEdge_nodes (g : NXGraph) (u v : String) (w : Nat) :
    (addEdge g u v w).nodes = (addNode (addNode g u) v).nodes := by
  unfold addEdge
  dsimp only
  split <;> rfl

/-- When neither orientation of the new edge is present, `add_edge` appends
it. -/
theorem addEdge_edges_of_fresh (g : NXGraph) (u v : String) (w : Nat)
    (h : ∀ e ∈ g.edges, e.1 ≠ (u, v) ∧ e.1 ≠ (v, u)) :
    (addEdge g u v w).edges = g.edges ++ [((u, v), w)] := by
  have hc : (g.edges.any (fun e => decide (e.1 = (u, v) ∨ e.1 = (v, u)))) = false := by
    rw [List.any_eq_false]
    intro e he
    have he' := h e he
    simp [he'.1, he'.2]
  unfold addEdge
  simp only [addNode_edges, hc, Bool.false_eq_true, if_false]

/-- The graph-population loop, started on a graph whose edges are ordered and
disjoint from the (distinct, ordered) keys still to insert, appends exactly
the count entries as edges. -/
theorem foldl_buildStep_edges : ∀ (counts : List ((String × String) × Nat)) (g : NXGraph),
    (∀ e ∈ g.edges, pyStrLt e.1.1 e.1.2 = true) →
    (∀ e ∈ counts, pyStrLt e.1.1 e.1.2 = true) →
    (∀ e ∈ g.edges, e.1 ∉ counts.map Prod.fst) →
    (counts.map Prod.fst).Nodup →
    (counts.foldl buildStep g).edges = g.edges ++ counts
  | [], g, _, _, _, _ => by simp
  | (k, c) :: rest, g, hg, hcounts, hdisj, hnodup => by
    have hklt : pyStrLt k.1 k.2 = true := hcounts (k, c) (List.mem_cons_self _ _)
    have hnodup' : k ∉ rest.map Prod.fst ∧ (rest.map Prod.fst).Nodup := by
      rw [List.map_cons, List.nodup_cons] at hnodup
      exact hnodup
    have hstep : (buildStep g (k, c)).edges = g.edges ++ [(k, c)] := by
      unfold buildStep
      rw [addEdge_edges_of_fresh]
      · rw [addNode_edges, addNode_edges]
      · intro e he
        rw [addNode_edges, addNode_edges] at he
        constructor
        · intro hk
          apply hdisj e he
          rw [hk]
          simp
        · intro hk
          have h1 := hg e he
          rw [hk] at h1
          have h2 := pyStrLt_asymm k.1 k.2 hklt
          simp only [h2] at h1
          exact Bool.false_ne_true h1
    rw [List.foldl_cons]
    rw [foldl_buildStep_edges rest (buildStep g (k, c))
        (by
          rw [hstep]
          intro e he
          rcases List.mem_append.mp he with h' | h'
          · exact hg e h'
          · rw [List.mem_singleton.mp h']
            exact hklt)
        (fun e he => hcounts e (List.mem_cons_of_mem _ he))
        (by
          rw [hstep]
          intro e he
          rcases List.mem_append.mp he with h' | h'
          · have := hdisj e h'
            rw [List.map_cons] at this
            exact fun hm => this (List.mem_cons_of_mem _ hm)
          · rw [List.mem_singleton.mp h']
            exact hnodup'.1)
        hnodup'.2]
    rw [hstep, List.append_assoc, List.singleton_append]

/-- The edges of the network built from the empty graph are exactly the
relationship-count entries. -/
theorem build_network_edges_eq (rels : List (String × String)) :
    (build_network emptyNXGraph rels).edges = relationship_counts rels := by
  obtain ⟨h1, h2, _⟩ := relationship_counts_wf rels
  have h := foldl_buildStep_edges (relationship_counts rels) emptyNXGraph
      (by intro e he; simp [emptyNXGraph] at he)
      h2
      (by intro e he; simp [emptyNXGraph] at he)
      h1
  simpa [build_network, emptyNXGraph] using h

/-- C10: the graph built by `build_network` on the extracted relationship
pairs has no self-loop, and every edge's weight is a positive integer equal
to the number of extracted pairs of its endpoints in either orientation. -/
theorem build_network_edge_spec (rels : List (String × String)) :
    ∀ e ∈ (build_network emptyNXGraph rels).edges,
      e.1.1 ≠ e.1.2 ∧ 0 < e.2 ∧ e.2 = pairOccurrences rels e.1.1 e.1.2 := by
  intro e he
  rw [build_network_edges_eq] at he
  obtain ⟨hnodup, hord, hpos⟩ := relationship_counts_wf rels
  have hlt := hord e he
  refine ⟨pyStrLt_ne _ _ hlt, hpos e he, ?_⟩
  have hlook : lookupCount (relationship_counts rels) e.1 = e.2 :=
    lookupCount_of_mem (relationship_counts rels) hnodup e.1 e.2 (by simpa using he)
  rw [← hlook, relationship_counts_lookup]
  unfold pairOccurrences
  apply List.countP_congr
  intro p _
  have hiff := normKey_eq_iff e.1.1 e.1.2 hlt p
  rw [Prod.mk.eta] at hiff
  simp only [decide_eq_true_eq]
  exact hiff

/-- Witness for C10: from the pairs [("Bob","Alice"), ("Alice","Bob")] the
built graph carries the single edge Alice-Bob with weight 2, matching the
occurrence count over both orientations. -/
theorem build_network_edge_spec_witness :
    ((("Alice", "Bob"), 2) ∈
        (build_network emptyNXGraph [("Bob", "Alice"), ("Alice", "Bob")]).edges) ∧
      ("Alice" ≠ "Bob" ∧ 0 < 2 ∧
        2 = pairOccurrences [("Bob", "Alice"), ("Alice", "Bob")] "Alice" "Bob") :=
  ⟨by decide,
    build_network_edge_spec [("Bob", "Alice"), ("Alice", "Bob")]
      (("Alice", "Bob"), 2) (by decide)⟩

/-- One graph-population step keeps existing nodes. -/
theorem buildStep_nodes_mono (g : NXGraph) (kc : (String × String) × Nat)
    (n : String) (h : n ∈ g.nodes) : n ∈ (buildStep g kc).nodes := by
  unfold buildStep
  rw [addEdge_nodes]
  exact addNode_nodes_mono _ _ _ (addNode_nodes_mono _ _ _
    (addNode_nodes_mono _ _ _ (addNode_nodes_mono _ _ _ h)))

/-- The graph-population loop keeps existing nodes. -/
theorem foldl_buildStep_nodes_mono (counts : List ((String × String) × Nat)) :
    ∀ (g : NXGraph) (n : String), n ∈ g.nodes →
      n ∈ (counts.foldl buildStep g).nodes := by
  induction counts with
  | nil => intro g n h; exact h
  | cons kc rest ih =>
    intro g n h
    rw [List.foldl_cons]
    exact ih (buildStep g kc) n (buildStep_nodes_mono g kc n h)

/-- A nonempty count list yields a graph with at least one node. -/
theorem foldl_buildStep_nodes_ne_nil (kc : (String × String) × Nat)
    (rest : List ((String × String) × Nat)) (g : NXGraph) :
    ((kc :: rest).foldl buildStep g).nodes ≠ [] := by
  intro hnil
  have h1 : kc.1.1 ∈ (buildStep g kc).nodes := by
    unfold buildStep
    rw [addEdge_nodes]
    exact addNode_nodes_mono _ _ _ (addNode_nodes_mono _ _ _
      (addNode_nodes_mono _ _ _ (addNode_mem g kc.1.1)))
  have h2 := foldl_buildStep_nodes_mono rest (buildStep g kc) kc.1.1 h1
  rw [← List.foldl_cons] at h2
  rw [hnil] at h2
  exact List.not_mem_nil _ h2

/-- C7: for a `NetworkAnalysis` instance whose graph is in a reachable state
(still empty, or already built), `analyze_network` reports exactly the node
and edge counts of the graph built by `build_network`. -/
theorem analyze_network_counts (st : NXGraph) (rels : List (String × String))
    (hst : st = emptyNXGraph ∨ st = build_network emptyNXGraph rels) :
    (analyze_network st rels).nodes = (build_network emptyNXGraph rels).nodes.length ∧
    (analyze_network st rels).edges = (build_network emptyNXGraph rels).edges.length := by
  rcases hst with rfl | rfl
  · exact ⟨rfl, rfl⟩
  · by_cases hempty : (build_network emptyNXGraph rels).nodes.isEmpty
    · have hnil : (build_network emptyNXGraph rels).nodes = [] :=
        List.isEmpty_iff.mp hempty
      have hcounts : relationship_counts rels = [] := by
        by_contra hne
        obtain ⟨kc, rest, hkr⟩ := List.exists_cons_of_ne_nil hne
        have h := foldl_buildStep_nodes_ne_nil kc rest emptyNXGraph
        rw [← hkr] at h
        exact h hnil
      have hb : build_network (build_network emptyNXGraph rels) rels =
          build_network emptyNXGraph rels := by
        show (relationship_counts rels).foldl buildStep (build_network emptyNXGraph rels) =
          build_network emptyNXGraph rels
        rw [hcounts, List.foldl_nil]
      constructor <;> simp [analyze_network, hempty, hb]
    · constructor <;> simp [analyze_network, hempty]

/-- Witness for C7 at a fresh (empty-graph) instance with one extracted
pair. -/
theorem analyze_network_counts_witness :
    (analyze_network emptyNXGraph [("Alice", "Bob")]).nodes =
        (build_network emptyNXGraph [("Alice", "Bob")]).nodes.length ∧
      (analyze_network emptyNXGraph [("Alice", "Bob")]).edges =
        (build_network emptyNXGraph [("Alice", "Bob")]).edges.length :=
  analyze_network_counts emptyNXGraph [("Alice", "Bob")] (Or.inl rfl)

/-! ### DigitalHumanities.process_request and NetworkAnalysis.export_network -/

/-- Outcome of the try-block body of `DigitalHumanities.process_request`
(lines 49-81): the comprehensive result dict of type `ρ`, or the exception
raised by some step. -/
inductive BodyOutcome (ρ : Type) where
  | ok (result : ρ) : BodyOutcome ρ
  | raised (msg : String) : BodyOutcome ρ

/-- Return value of `process_request`: the comprehensive result, or the
except-branch dict with its "error" and "timestamp" keys (lines 82-86). -/
inductive ProcessRequestResult (ρ : Type) where
  | result (r : ρ) : ProcessRequestResult ρ
  | errorDict (error timestamp : String) : ProcessRequestResult ρ

/-- `DigitalHumanities.process_request` (lines 39-86): the try/except wrapper
around the body, parameterized by the body's outcome and the current
timestamp string. -/
def process_request {ρ : Type} (body : BodyOutcome ρ) (now : String) :
    ProcessRequestResult ρ :=
  match body with
  | BodyOutcome.ok r => ProcessRequestResult.result r
  | BodyOutcome.raised e => ProcessRequestResult.errorDict e now

/-- Filesystem effect of a successful `NetworkAnalysis.export_network`. -/
inductive ExportEffect where
  | writeGraphml (path : String) : ExportEffect
  | writeGexf (path : String) : ExportEffect
  | writeGml (path : String) : ExportEffect
  | writeJson (path : String) : ExportEffect
deriving DecidableEq

/-- `NetworkAnalysis.export_network` (lines 193-217) after the optional
build: dispatch on the format string; an unsupported format raises
`ValueError(f"Unsupported format: {format}")`, which no try/except catches. -/
def export_network (file_path fmt : String) : Except String ExportEffect :=
  if fmt = "graphml" then Except.ok (ExportEffect.writeGraphml file_path)
  else if fmt = "gexf" then Except.ok (ExportEffect.writeGexf file_path)
  else if fmt = "gml" then Except.ok (ExportEffect.writeGml file_path)
  else if fmt = "json" then Except.ok (ExportEffect.writeJson file_path)
  else Except.error ("Unsupported format: " ++ fmt)

/-- C2 counterexample: `export_network` with the unsupported format "xml"
raises a `ValueError` that propagates to the caller, so not every public
operation wraps failures in a caught-and-returned error value. -/
theorem export_network_raises_counterexample :
    export_network "network.xml" "xml" = Except.error "Unsupported format: xml" := rfl

/-- C2 (amended): `process_request` returns a dict with the "error" and
"timestamp" keys whenever any step of its body raises and the comprehensive
result otherwise, and `export_network` completes without raising on each of
its four supported formats — but the uniform catch-and-return pattern is not
universal, as `export_network` raises on any other format. -/
theorem process_request_wraps_exceptions {ρ : Type} (e now : String) (r : ρ) :
    process_request (BodyOutcome.raised e : BodyOutcome ρ) now =
        ProcessRequestResult.errorDict e now ∧
    process_request (BodyOutcome.ok r) now = ProcessRequestResult.result r ∧
    (∀ fmt path, fmt = "graphml" ∨ fmt = "gexf" ∨ fmt = "gml" ∨ fmt = "json" →
      ∃ eff, export_network path fmt = Except.ok eff) := by
  refine ⟨rfl, rfl, ?_⟩
  intro fmt path h
  rcases h with rfl | rfl | rfl | rfl
  · exact ⟨ExportEffect.writeGraphml path, rfl⟩
  · exact ⟨ExportEffect.writeGexf path, rfl⟩
  · exact ⟨ExportEffect.writeGml path, rfl⟩
  · exact ⟨ExportEffect.writeJson path, rfl⟩

/-- Witness for the amended C2 at concrete inputs. -/
theorem process_request_wraps_exceptions_witness :
    (process_request (BodyOutcome.raised "boom" : BodyOutcome Nat) "2026-01-01" =
        ProcessRequestResult.errorDict "boom" "2026-01-01") ∧
    (∃ eff, export_network "net.graphml" "graphml" = Except.ok eff) :=
  ⟨(process_request_wraps_exceptions "boom" "2026-01-01" (0 : Nat)).1,
    (process_request_wraps_exceptions "boom" "2026-01-01" (0 : Nat)).2.2
      "graphml" "net.graphml" (Or.inl rfl)⟩

/-! ### CulturalAnalyzer (`cultural_data_analysis/cultural_analyzer.py`) -/

/-- Tabular model of the pandas DataFrame held by `CulturalAnalyzer`: column
names, rows of cell values, the columns pandas reports as numeric
(`select_dtypes(include=[np.number])`), and whether the numeric part becomes
empty after `dropna()`. -/
structure DataFrame (α : Type) where
  columns : List String
  rows : List (List α)
  numeric_columns : List String
  numericDropnaEmpty : Bool
deriving DecidableEq

/-- Pandas `DataFrame.empty`: true when either axis has length zero. -/
def dfEmpty {α : Type} (df : DataFrame α) : Bool :=
  df.rows.isEmpty || df.columns.isEmpty

/-- Symbolic payload of a successful `CulturalAnalyzer` method: which library
computation produced it, on which data. -/
inductive CAPayload (α : Type) where
  | describeStats (df : DataFrame α) : CAPayload α
  | correlation (df : DataFrame α) : CAPayload α
  | clusters (df : DataFrame α) (n_clusters : Nat) : CAPayload α
  | timeSeries (df : DataFrame α) (time_col value_col : String) : CAPayload α
  | geographic (df : DataFrame α) (lat_col lon_col : String)
      (value_col : Option String) : CAPayload α
  | sentiments (df : DataFrame α) (text_col : String) : CAPayload α
deriving DecidableEq

/-- Return value of the dict-returning `CulturalAnalyzer` methods: an error
dict or a result payload. -/
inductive CAResult (α : Type) where
  | errorDict (msg : String) : CAResult α
  | ok (payload : CAPayload α) : CAResult α
deriving DecidableEq

/-- The `networkx.Graph` built by `CulturalAnalyzer.network_analysis`, kept
symbolic. -/
inductive CAGraph (α : Type) where
  | fromColumns (df : DataFrame α) (node_col edge_col : String) : CAGraph α
deriving DecidableEq

/-- `CulturalAnalyzer.descriptive_statistics` (lines 64-100). -/
def descriptive_statistics {α : Type} (df : DataFrame α) : CAResult α :=
  if dfEmpty df then CAResult.errorDict "数据为空"
  else CAResult.ok (CAPayload.describeStats df)

/-- `CulturalAnalyzer.correlation_analysis` (lines 102-126). -/
def correlation_analysis {α : Type} (df : DataFrame α) : CAResult α :=
  if dfEmpty df then CAResult.errorDict "数据为空"
  else if df.numeric_columns.length < 2 then CAResult.errorDict "数值型列不足"
  else CAResult.ok (CAPayload.correlation df)

/-- `CulturalAnalyzer.cluster_analysis` (lines 167-208). -/
def cluster_analysis {α : Type} (df : DataFrame α) (n_clusters : Nat) : CAResult α :=
  if dfEmpty df then CAResult.errorDict "数据为空"
  else if df.numeric_columns.length < 2 then CAResult.errorDict "数值型列不足"
  else if df.numericDropnaEmpty then CAResult.errorDict "处理缺失值后数据为空"
  else CAResult.ok (CAPayload.clusters df n_clusters)

/-- `CulturalAnalyzer.time_series_analysis` (lines 210-247); `conv` is the
outcome of the `pd.to_datetime` conversion of the time column. -/
def time_series_analysis {α : Type} (df : DataFrame α) (time_col value_col : String)
    (conv : TryOutcome) : CAResult α :=
  if dfEmpty df then CAResult.errorDict "数据为空"
  else if time_col ∉ df.columns ∨ value_col ∉ df.columns then
    CAResult.errorDict "列名不存在"
  else
    match conv with
    | TryOutcome.raised e => CAResult.errorDict ("时间列转换失败: " ++ e)
    | TryOutcome.ok => CAResult.ok (CAPayload.timeSeries df time_col value_col)

/-- `CulturalAnalyzer.geographic_analysis` (lines 263-314). -/
def geographic_analysis {α : Type} (df : DataFrame α) (lat_col lon_col : String)
    (value_col : Option String) : CAResult α :=
  if dfEmpty df then CAResult.errorDict "数据为空"
  else if lat_col ∉ df.columns ∨ lon_col ∉ df.columns then
    CAResult.errorDict "经纬度列不存在"
  else CAResult.ok (CAPayload.geographic df lat_col lon_col value_col)

/-- `CulturalAnalyzer.sentiment_analysis` (lines 316-367). -/
def sentiment_analysis {α : Type} (df : DataFrame α) (text_col : String) : CAResult α :=
  if dfEmpty df then CAResult.errorDict "数据为空"
  else if text_col ∉ df.columns then CAResult.errorDict "文本列不存在"
  else CAResult.ok (CAPayload.sentiments df text_col)

/-- `CulturalAnalyzer.network_analysis` (lines 128-165): unlike the other
methods it returns `None` (not an error dict) on an empty DataFrame or a
missing column. -/
def cultural_network_analysis {α : Type} (df : DataFrame α)
    (node_col edge_col : String) : Option (CAGraph α) :=
  if dfEmpty df then none
  else if node_col ∉ df.columns ∨ edge_col ∉ df.columns then none
  else some (CAGraph.fromColumns df node_col edge_col)

/-- The empty DataFrame used as the C4 counterexample input. -/
def dfNone : DataFrame Nat := ⟨[], [], [], false⟩

/-- C4 counterexample: on an empty DataFrame, `network_analysis` returns
`None`, which is not a dict containing an "error" key. -/
theorem cultural_network_analysis_counterexample :
    cultural_network_analysis dfNone "a" "b" = none := rfl

/-- C4 (amended): on an empty DataFrame the six dict-returning
`CulturalAnalyzer` methods return an error dict and `network_analysis`
returns `None`; on a non-empty DataFrame, a missing referenced column makes
the column-taking dict methods return an error dict, while `network_analysis`
again returns `None`. -/
theorem cultural_analyzer_error_guards {α : Type} (df : DataFrame α)
    (tc vc lat lon txt nc ec : String) (n : Nat) (conv : TryOutcome)
    (vcol : Option String) :
    (dfEmpty df = true →
      descriptive_statistics df = CAResult.errorDict "数据为空" ∧
      correlation_analysis df = CAResult.errorDict "数据为空" ∧
      cluster_analysis df n = CAResult.errorDict "数据为空" ∧
      time_series_analysis df tc vc conv = CAResult.errorDict "数据为空" ∧
      geographic_analysis df lat lon vcol = CAResult.errorDict "数据为空" ∧
      sentiment_analysis df txt = CAResult.errorDict "数据为空" ∧
      cultural_network_analysis df nc ec = none) ∧
    (dfEmpty df = false →
      ((tc ∉ df.columns ∨ vc ∉ df.columns) →
        time_series_analysis df tc vc conv = CAResult.errorDict "列名不存在") ∧
      ((lat ∉ df.columns ∨ lon ∉ df.columns) →
        geographic_analysis df lat lon vcol = CAResult.errorDict "经纬度列不存在") ∧
      (txt ∉ df.columns →
        sentiment_analysis df txt = CAResult.errorDict "文本列不存在") ∧
      ((nc ∉ df.columns ∨ ec ∉ df.columns) →
        cultural_network_analysis df nc ec = none)) := by
  constructor
  · intro he
    refine ⟨?_, ?_, ?_, ?_, ?_, ?_, ?_⟩ <;>
      simp [descriptive_statistics, correlation_analysis, cluster_analysis,
        time_series_analysis, geographic_analysis, sentiment_analysis,
        cultural_network_analysis, he]
  · intro he
    refine ⟨?_, ?_, ?_, ?_⟩
    · intro hcols
      simp [time_series_analysis, he, hcols]
    · intro hcols
      simp [geographic_analysis, he, hcols]
    · intro hcols
      simp [sentiment_analysis, he, hcols]
    · intro hcols
      simp [cultural_network_analysis, he, hcols]

/-- A non-empty one-column DataFrame for the C4 witness. -/
def dfOne : DataFrame Nat := ⟨["x"], [[1]], ["x"], false⟩

/-- Witness for the amended C4 at concrete DataFrames. -/
theorem cultural_analyzer_error_guards_witness :
    (descriptive_statistics dfNone = CAResult.errorDict "数据为空" ∧
     correlation_analysis dfNone = CAResult.errorDict "数据为空" ∧
     cluster_analysis dfNone 3 = CAResult.errorDict "数据为空" ∧
     time_series_analysis dfNone "t" "v" TryOutcome.ok = CAResult.errorDict "数据为空" ∧
     geographic_analysis dfNone "lat" "lon" none = CAResult.errorDict "数据为空" ∧
     sentiment_analysis dfNone "txt" = CAResult.errorDict "数据为空" ∧
     cultural_network_analysis dfNone "n" "e" = none) ∧
    (time_series_analysis dfOne "t" "v" TryOutcome.ok = CAResult.errorDict "列名不存在" ∧
     geographic_analysis dfOne "lat" "lon" none = CAResult.errorDict "经纬度列不存在" ∧
     sentiment_analysis dfOne "txt" = CAResult.errorDict "文本列不存在" ∧
     cultural_network_analysis dfOne "n" "e" = none) := by
  constructor
  · exact (cultural_analyzer_error_guards dfNone "t" "v" "lat" "lon" "txt" "n" "e" 3
      TryOutcome.ok none).1 (by decide)
  · have h := (cultural_analyzer_error_guards dfOne "t" "v" "lat" "lon" "txt" "n" "e" 3
      TryOutcome.ok none).2 (by decide)
    exact ⟨h.1 (by decide), h.2.1 (by decide), h.2.2.1 (by decide), h.2.2.2 (by decide)⟩

/-! ### ImageAnalyzer (`digital_image_processing/image_analyzer.py`) -/

/-- Symbolic OpenCV/skimage statistic over the loaded image of type `Img`:
`mean`/`std` are `cv2.meanStdDev` over an RGB channel, `meanLab`/`stdLab` the
same over a channel of the `cv2.COLOR_RGB2Lab` conversion; the remaining
constructors tag the other analysis entries. -/
inductive CVVal (Img : Type) where
  | mean (img : Img) (channel : Nat) : CVVal Img
  | std (img : Img) (channel : Nat) : CVVal Img
  | meanLab (img : Img) (channel : Nat) : CVVal Img
  | stdLab (img : Img) (channel : Nat) : CVVal Img
  | edgeDensity (img : Img) : CVVal Img
  | textureFeatures (img : Img) : CVVal Img
  | composition (img : Img) : CVVal Img
  | brightness (img : Img) : CVVal Img
  | contrast (img : Img) : CVVal Img
  | entropy (img : Img) : CVVal Img
deriving DecidableEq

/-- `ImageAnalyzer._analyze_color_distribution` (lines 68-104): the returned
dict as an insertion-ordered association list. -/
def analyze_color_distribution {Img : Type} (img : Img) : List (String × CVVal Img) :=
  [("mean_r", CVVal.mean img 0), ("mean_g", CVVal.mean img 1),
   ("mean_b", CVVal.mean img 2), ("std_r", CVVal.std img 0),
   ("std_g", CVVal.std img 1), ("std_b", CVVal.std img 2),
   ("mean_l", CVVal.meanLab img 0), ("mean_a", CVVal.meanLab img 1),
   ("mean_b_lab", CVVal.meanLab img 2), ("std_l", CVVal.stdLab img 0),
   ("std_a", CVVal.stdLab img 1), ("std_b_lab", CVVal.stdLab img 2)]

/-- Return value of `ImageAnalyzer.analyze`: the analysis dict, or the error
dict when `self.image is None`. -/
inductive AnalyzeResult (Img : Type) where
  | errorDict (msg : String) : AnalyzeResult Img
  | ok (color_distribution : List (String × CVVal Img))
      (edge_density texture_features composition brightness contrast
        entropy : CVVal Img) : AnalyzeResult Img
deriving DecidableEq

/-- `ImageAnalyzer.analyze` (lines 46-66), as a function of the `self.image`
attribute left by `load_image` (`none` when loading failed). -/
def analyze {Img : Type} (image : Option Img) : AnalyzeResult Img :=
  match image with
  | none => AnalyzeResult.errorDict "图像未加载"
  | some img =>
    AnalyzeResult.ok (analyze_color_distribution img) (CVVal.edgeDensity img)
      (CVVal.textureFeatures img) (CVVal.composition img) (CVVal.brightness img)
      (CVVal.contrast img) (CVVal.entropy img)

/-- C6: on a loaded image, `analyze` returns a dict whose color_distribution
entry has exactly the twelve keys mean_r, mean_g, mean_b, std_r, std_g,
std_b, mean_l, mean_a, mean_b_lab, std_l, std_a, std_b_lab; on a failed
load it returns a dict with an "error" key. -/
theorem analyze_color_distribution_keys {Img : Type} (image : Option Img) :
    (∀ img, image = some img →
      analyze image =
        AnalyzeResult.ok (analyze_color_distribution img) (CVVal.edgeDensity img)
          (CVVal.textureFeatures img) (CVVal.composition img) (CVVal.brightness img)
          (CVVal.contrast img) (CVVal.entropy img) ∧
      (analyze_color_distribution img).map Prod.fst =
        ["mean_r", "mean_g", "mean_b", "std_r", "std_g", "std_b",
         "mean_l", "mean_a", "mean_b_lab", "std_l", "std_a", "std_b_lab"]) ∧
    (image = none → analyze image = AnalyzeResult.errorDict "图像未加载") := by
  constructor
  · intro img h
    subst h
    exact ⟨rfl, rfl⟩
  · intro h
    subst h
    rfl

/-- Witness for C6 at a concrete loaded and a concrete unloaded analyzer. -/
theorem analyze_color_distribution_keys_witness :
    (analyze (some (0 : Nat)) =
        AnalyzeResult.ok (analyze_color_distribution 0) (CVVal.edgeDensity 0)
          (CVVal.textureFeatures 0) (CVVal.composition 0) (CVVal.brightness 0)
          (CVVal.contrast 0) (CVVal.entropy 0) ∧
      (analyze_color_distribution (0 : Nat)).map Prod.fst =
        ["mean_r", "mean_g", "mean_b", "std_r", "std_g", "std_b",
         "mean_l", "mean_a", "mean_b_lab", "std_l", "std_a", "std_b_lab"]) ∧
    analyze (none : Option Nat) = AnalyzeResult.errorDict "图像未加载" :=
  ⟨(analyze_color_distribution_keys (some (0 : Nat))).1 0 rfl,
    (analyze_color_distribution_keys (none : Option Nat)).2 rfl⟩
